import Mathlib

set_option maxRecDepth 100000

/-!
Shallow embedding of `categorize_rss.py` (repository Snapcyberdragon/Feed-Rss-notizie).

Strings are modelled as Lean `String`/`List Char`; Python regular-expression
character classes `\w` and `\s` are modelled over ASCII (all rule keywords and
all inputs appearing in the theorems below are ASCII). Timestamps are integers.
-/

namespace CategorizeRss

/-- Python `\s` (ASCII range): space, tab, newline, carriage return,
vertical tab, form feed. -/
def isSpaceChar (c : Char) : Bool :=
  c = ' ' || c = '\t' || c = '\n' || c = '\r' || c = '\x0b' || c = '\x0c'

/-- Python `\w` (ASCII range): letters, digits, underscore. -/
def isWordChar (c : Char) : Bool :=
  c.isAlphanum || c = '_'

/-- Characters matched by `NEWLINES_REGEX = re.compile(r'[\n\r\t]+')`. -/
def isNlrt (c : Char) : Bool :=
  c = '\n' || c = '\r' || c = '\t'

/-- `re.sub(p+, ' ', l)` for a single-character class `p`: every maximal run of
characters satisfying `p` is replaced by one space. `inRun` records whether the
previous character was part of a run already replaced. -/
def squashAux (p : Char → Bool) (inRun : Bool) : List Char → List Char
  | [] => []
  | c :: cs =>
    if p c then
      if inRun then squashAux p true cs else ' ' :: squashAux p true cs
    else c :: squashAux p false cs

/-- `NEWLINES_REGEX.sub(' ', l)`. -/
def newlinesSub (l : List Char) : List Char :=
  squashAux isNlrt false l

/-- `SPACES_REGEX.sub(' ', l)` where `SPACES_REGEX = re.compile(r'\s+')`. -/
def spacesSub (l : List Char) : List Char :=
  squashAux isSpaceChar false l

/-- Attempt to match the alternative `<[^>]+>` of `CLEAN_REGEX` at the head of
the list; on success return the remainder after the match. -/
def tagMatch : List Char → Option (List Char)
  | '<' :: rest =>
    let body := rest.takeWhile (fun c => c ≠ '>')
    match rest.dropWhile (fun c => c ≠ '>') with
    | '>' :: tail => if body.isEmpty then none else some tail
    | _ => none
  | _ => none

/-- Attempt to match the alternative `http\S+` of `CLEAN_REGEX` at the head of
the list; on success return the remainder after the match. -/
def httpMatch : List Char → Option (List Char)
  | 'h' :: 't' :: 't' :: 'p' :: rest =>
    if (rest.takeWhile (fun c => !isSpaceChar c)).isEmpty then none
    else some (rest.dropWhile (fun c => !isSpaceChar c))
  | _ => none

/-- `CLEAN_REGEX.sub(' ', l)` where
`CLEAN_REGEX = re.compile(r'<[^>]+>|http\S+|[^\w\s]')`: scan left to right; at
each position the ordered alternation tries an HTML tag, then a URL, then a
single character that is neither a word character nor whitespace; every match
is replaced by one space. Fuel-indexed recursion: each step consumes at least
one character. -/
def cleanSubAux : Nat → List Char → List Char
  | _, [] => []
  | 0, l => l
  | fuel + 1, c :: cs =>
    match tagMatch (c :: cs) with
    | some rest => ' ' :: cleanSubAux fuel rest
    | none =>
      match httpMatch (c :: cs) with
      | some rest => ' ' :: cleanSubAux fuel rest
      | none =>
        if !isWordChar c && !isSpaceChar c then ' ' :: cleanSubAux fuel cs
        else c :: cleanSubAux fuel cs

/-- `CLEAN_REGEX.sub(' ', l)` proper: the fuel `l.length` is never exhausted,
since every step consumes at least one character and one unit of fuel. -/
def cleanSub (l : List Char) : List Char :=
  cleanSubAux l.length l

/-- Python `str.strip()`: remove leading and trailing whitespace. -/
def pstrip (l : List Char) : List Char :=
  ((l.dropWhile isSpaceChar).reverse.dropWhile isSpaceChar).reverse

/-- The normalization pipeline of `classify_text` (lines 221-223):
`NEWLINES_REGEX.sub`, `CLEAN_REGEX.sub`, `SPACES_REGEX.sub`, `.lower().strip()`. -/
def normalize (s : String) : String :=
  ⟨pstrip ((spacesSub (cleanSub (newlinesSub s.data))).map Char.toLower)⟩

/-! ### Keyword patterns

Every keyword / exclusion pattern in `CATEGORIES` has the shape
`\b(alt1|alt2|...)\b` with literal alternatives, compiled with `re.I`; since
`classify_text` lowercases the text before searching, a pattern matches exactly
when some alternative occurs in the text with a word boundary on each side.
Each alternative begins and ends with a word character. -/

/-- A pattern `\b(alt1|...|altn)\b` is modelled by its list of alternatives. -/
abbrev Pattern := List String

/-- Does the list start with `alt`?  On success return the remainder. -/
def startsWithAlt : List Char → List Char → Option (List Char)
  | [], rest => some rest
  | _ :: _, [] => none
  | a :: as, c :: cs => if c = a then startsWithAlt as cs else none

/-- Does `alt` occur at the head of `l` with a word boundary after it?
(The last character of every alternative is a word character, so the trailing
`\b` holds exactly when the next character is absent or not a word character.) -/
def altHere (alt : List Char) (l : List Char) : Bool :=
  match startsWithAlt alt l with
  | some [] => true
  | some (c :: _) => !isWordChar c
  | none => false

/-- Scan for a boundary-delimited occurrence of any alternative. `prev` is the
character before the current position (`none` at the start of the text); the
leading `\b` holds exactly when `prev` is absent or not a word character, since
the first character of every alternative is a word character. -/
def searchFrom (alts : List (List Char)) (prev : Option Char) : List Char → Bool
  | [] => false
  | c :: cs =>
    (boundaryOk prev && alts.any (fun a => altHere a (c :: cs)))
      || searchFrom alts (some c) cs
where
  boundaryOk : Option Char → Bool
    | none => true
    | some p => !isWordChar p

/-- `pattern.search(text)` for a pattern `\b(alt1|...|altn)\b`. -/
def psearch (p : Pattern) (s : String) : Bool :=
  searchFrom (p.map String.data) none s.data

/-- A category's rule set: `keywords` (pattern, weight) in declaration order,
`exclude` patterns, `threshold`. -/
structure Category where
  keywords : List (Pattern × Nat)
  exclude : List Pattern
  threshold : Nat
deriving DecidableEq

/-- The `"Italia"` entry of `CATEGORIES` (lines 54-64). -/
def italiaCat : Category :=
  { keywords := [(["italia", "italy"], 3),
                 (["roma", "rome", "milano", "milan"], 2),
                 (["governo", "senato", "camera", "parlamento"], 4)]
    exclude := [["ue", "eu", "nato", "europa"]]
    threshold := 5 }

/-- The `"Economy"` entry of `CATEGORIES` (lines 65-72). -/
def economyCat : Category :=
  { keywords := [(["pil", "gdp"], 4),
                 (["inflazione", "inflation"], 3),
                 (["spread", "bce", "ecb"], 4)]
    exclude := []
    threshold := 6 }

/-- The `"USA"` entry of `CATEGORIES` (lines 73-79). -/
def usaCat : Category :=
  { keywords := [(["usa", "u.s.a", "united states"], 5),
                 (["white house", "congresso usa"], 4)]
    exclude := []
    threshold := 4 }

/-- `CATEGORIES` (lines 53-80), in Python insertion order. -/
def CATEGORIES : List (String × Category) :=
  [("Italia", italiaCat), ("Economy", economyCat), ("USA", usaCat)]

/-- Is the category excluded for this (normalized) text: does any of its
exclusion patterns match (lines 232-236)? -/
def isExcluded (c : Category) (tc : String) : Bool :=
  c.exclude.any (fun p => psearch p tc)

/-- Keyword score of one category on the (normalized) text (lines 239-244):
each pattern that matches at least once contributes its weight exactly once. -/
def catScore (c : Category) (tc : String) : Nat :=
  c.keywords.foldl (fun s pw => if psearch pw.1 tc then s + pw.2 else s) 0

/-- The `scores` dict after the two loops of `classify_text` (lines 228-244):
initialized to 0 per category, excluded categories skipped (left at 0). -/
def scores (tc : String) : List (String × Nat) :=
  CATEGORIES.map (fun nc => (nc.1, if isExcluded nc.2 tc then 0 else catScore nc.2 tc))

/-- `CATEGORIES[cat].get("threshold", 0)` (line 248). -/
def thresholdOf (name : String) : Nat :=
  match CATEGORIES.lookup name with
  | some c => c.threshold
  | none => 0

/-- `valid_cats` (lines 247-248): categories whose score meets the threshold. -/
def validCats (tc : String) : List (String × Nat) :=
  (scores tc).filter (fun cs => thresholdOf cs.1 ≤ cs.2)

/-- Python `max(valid_cats, key=valid_cats.get) if valid_cats else "Altro"`
(line 249): the first key attaining the maximal score, `"Altro"` when empty. -/
def pickMax : List (String × Nat) → String
  | [] => "Altro"
  | x :: xs => (xs.foldl (fun best y => if best.2 < y.2 then y else best) x).1

/-- `FeedProcessor.classify_text` (lines 219-253). -/
def classify_text (text : String) : String :=
  let tc := normalize text
  if tc = "" then "Altro"
  else pickMax (validCats tc)

/-! ### SHA-256 (`hashlib.sha256(raw_text.encode()).hexdigest()`)

A full implementation over `Nat`, word arithmetic taken modulo `2 ^ 32`. -/

/-- Reduce modulo `2 ^ 32`. -/
def m32 (x : Nat) : Nat := x % 4294967296

/-- 32-bit right rotation. -/
def rotr32 (n x : Nat) : Nat := m32 ((x >>> n) ||| (x <<< (32 - n)))

def bigSigma0 (x : Nat) : Nat := rotr32 2 x ^^^ rotr32 13 x ^^^ rotr32 22 x

def bigSigma1 (x : Nat) : Nat := rotr32 6 x ^^^ rotr32 11 x ^^^ rotr32 25 x

def smallSigma0 (x : Nat) : Nat := rotr32 7 x ^^^ rotr32 18 x ^^^ (x >>> 3)

def smallSigma1 (x : Nat) : Nat := rotr32 17 x ^^^ rotr32 19 x ^^^ (x >>> 10)

def chFun (x y z : Nat) : Nat := (x &&& y) ^^^ ((4294967295 ^^^ x) &&& z)

def majFun (x y z : Nat) : Nat := (x &&& y) ^^^ (x &&& z) ^^^ (y &&& z)

/-- The 64 SHA-256 round constants (FIPS 180-4, written in decimal). -/
def K256 : List Nat :=
  [1116352408, 1899447441, 3049323471, 3921009573,
   961987163, 1508970993, 2453635748, 2870763221,
   3624381080, 310598401, 607225278, 1426881987,
   1925078388, 2162078206, 2614888103, 3248222580,
   3835390401, 4022224774, 264347078, 604807628,
   770255983, 1249150122, 1555081692, 1996064986,
   2554220882, 2821834349, 2952996808, 3210313671,
   3336571891, 3584528711, 113926993, 338241895,
   666307205, 773529912, 1294757372, 1396182291,
   1695183700, 1986661051, 2177026350, 2456956037,
   2730485921, 2820302411, 3259730800, 3345764771,
   3516065817, 3600352804, 4094571909, 275423344,
   430227734, 506948616, 659060556, 883997877,
   958139571, 1322822218, 1537002063, 1747873779,
   1955562222, 2024104815, 2227730452, 2361852424,
   2428436474, 2756734187, 3204031479, 3329325298]

/-- A SHA-256 hash state: eight 32-bit words. -/
structure H8 where
  a : Nat
  b : Nat
  c : Nat
  d : Nat
  e : Nat
  f : Nat
  g : Nat
  h : Nat
deriving DecidableEq

/-- The SHA-256 initial hash value (FIPS 180-4, written in decimal). -/
def H256init : H8 :=
  ⟨1779033703, 3144134277, 1013904242, 2773480762,
   1359893119, 2600822924, 528734635, 1541459225⟩

/-- UTF-8 encoding of one character (as in Python `str.encode()`). -/
def utf8Char (c : Char) : List Nat :=
  let n := c.toNat
  if n < 0x80 then [n]
  else if n < 0x800 then [0xc0 + n / 64, 0x80 + n % 64]
  else if n < 0x10000 then [0xe0 + n / 4096, 0x80 + n / 64 % 64, 0x80 + n % 64]
  else [0xf0 + n / 262144, 0x80 + n / 4096 % 64, 0x80 + n / 64 % 64, 0x80 + n % 64]

/-- UTF-8 byte sequence of a string. -/
def utf8Bytes (s : String) : List Nat :=
  (s.data.map utf8Char).flatten

/-- Big-endian 8-byte encoding of the bit length. -/
def be64 (n : Nat) : List Nat :=
  [n >>> 56 % 256, n >>> 48 % 256, n >>> 40 % 256, n >>> 32 % 256,
   n >>> 24 % 256, n >>> 16 % 256, n >>> 8 % 256, n % 256]

/-- SHA-256 message padding: append `0x80`, zero bytes to 56 mod 64, then the
message bit length as 8 big-endian bytes. -/
def padBytes (msg : List Nat) : List Nat :=
  let L := msg.length
  let k := (64 + 56 - (L + 1) % 64) % 64
  msg ++ [0x80] ++ List.replicate k 0 ++ be64 (8 * L)

/-- Split a byte list into 64-byte chunks (fuel-indexed; the fuel `l.length`
is never exhausted, each step consumes at least one byte). -/
def chunks64Aux : Nat → List Nat → List (List Nat)
  | _, [] => []
  | 0, l => [l]
  | fuel + 1, l => l.take 64 :: chunks64Aux fuel (l.drop 64)

/-- Split a byte list into 64-byte chunks. -/
def chunks64 (l : List Nat) : List (List Nat) :=
  chunks64Aux l.length l

/-- Combine 4 bytes into a 32-bit big-endian word, 16 words per chunk. -/
def toWords : List Nat → List Nat
  | b0 :: b1 :: b2 :: b3 :: rest =>
    (b0 <<< 24 ||| b1 <<< 16 ||| b2 <<< 8 ||| b3) :: toWords rest
  | _ => []

/-- Append the next word of the message schedule. -/
def schedStep (ws : List Nat) : List Nat :=
  ws ++ [m32 (smallSigma1 (ws.getD (ws.length - 2) 0) + ws.getD (ws.length - 7) 0
              + smallSigma0 (ws.getD (ws.length - 15) 0) + ws.getD (ws.length - 16) 0)]

/-- Extend the 16 message words to the 64-word schedule. -/
def schedule (ws : List Nat) : List Nat :=
  (List.range 48).foldl (fun acc _ => schedStep acc) ws

/-- One SHA-256 round. -/
def round256 (st : H8) (wk : Nat × Nat) : H8 :=
  let t1 := m32 (st.h + bigSigma1 st.e + chFun st.e st.f st.g + wk.2 + wk.1)
  let t2 := m32 (bigSigma0 st.a + majFun st.a st.b st.c)
  ⟨m32 (t1 + t2), st.a, st.b, st.c, m32 (st.d + t1), st.e, st.f, st.g⟩

/-- Process one 64-byte block. -/
def processBlock (hv : H8) (block : List Nat) : H8 :=
  let ws := schedule (toWords block)
  let st := (ws.zip K256).foldl round256 hv
  ⟨m32 (hv.a + st.a), m32 (hv.b + st.b), m32 (hv.c + st.c), m32 (hv.d + st.d),
   m32 (hv.e + st.e), m32 (hv.f + st.f), m32 (hv.g + st.g), m32 (hv.h + st.h)⟩

/-- SHA-256 of a byte sequence. -/
def sha256 (msg : List Nat) : H8 :=
  (chunks64 (padBytes msg)).foldl processBlock H256init

/-- Lowercase hex digit. -/
def hexDigit (n : Nat) : Char :=
  if n < 10 then Char.ofNat (48 + n) else Char.ofNat (87 + n)

/-- Eight lowercase hex digits of a 32-bit word. -/
def wordHex (x : Nat) : List Char :=
  [hexDigit (x >>> 28 % 16), hexDigit (x >>> 24 % 16), hexDigit (x >>> 20 % 16),
   hexDigit (x >>> 16 % 16), hexDigit (x >>> 12 % 16), hexDigit (x >>> 8 % 16),
   hexDigit (x >>> 4 % 16), hexDigit (x % 16)]

/-- `hashlib.sha256(s.encode()).hexdigest()`. -/
def sha256hex (s : String) : String :=
  let d := sha256 (utf8Bytes s)
  ⟨wordHex d.a ++ wordHex d.b ++ wordHex d.c ++ wordHex d.d
    ++ wordHex d.e ++ wordHex d.f ++ wordHex d.g ++ wordHex d.h⟩

/-! ### Dedup cache, entry processing, cache persistence -/

/-- `CACHE_EXPIRE_DAYS = 3` (line 28). Timestamps are modelled as integers. -/
def CACHE_EXPIRE_DAYS : Int := 3

/-- `ARTICLES_PER_FEED = 10` (line 30). -/
def ARTICLES_PER_FEED : Nat := 10

/-- A persisted cache record (the dict stored at `self.cache[content_hash]`,
lines 207-212). -/
structure CacheRecord where
  timestamp : Int
  category : String
  title : String
  link : String
deriving DecidableEq

/-- A feed entry as consumed by `process_entry` / `generate_opml`: the fields
read via `entry.get(...)`, absent fields modelled as `none`. -/
structure Entry where
  title : Option String
  description : Option String
  link : Option String
deriving DecidableEq

/-- A Python `dict` as an association list with unique keys in insertion
order; `lookupA` is `d.get` / the `in` test. -/
def lookupA (l : List (String × CacheRecord)) (k : String) : Option CacheRecord :=
  match l with
  | [] => none
  | kv :: rest => if kv.1 = k then some kv.2 else lookupA rest k

/-- `k in d`. -/
def containsA (l : List (String × CacheRecord)) (k : String) : Bool :=
  (lookupA l k).isSome

/-- `d[k] = v`: replace in place if the key exists, else append (Python dict
insertion-order semantics). -/
def insertA (l : List (String × CacheRecord)) (k : String) (v : CacheRecord) :
    List (String × CacheRecord) :=
  match l with
  | [] => [(k, v)]
  | kv :: rest => if kv.1 = k then (k, v) :: rest else kv :: insertA rest k v

/-- Number of records stored under key `k`. -/
def countKey (l : List (String × CacheRecord)) (k : String) : Nat :=
  (l.filter (fun kv => kv.1 = k)).length

/-- `raw_text = f"{entry.get('title', '')} {entry.get('description', '')}"`
(line 199). -/
def raw_text (e : Entry) : String :=
  e.title.getD "" ++ " " ++ e.description.getD ""

/-- `content_hash = hashlib.sha256(raw_text.encode()).hexdigest()` (line 200). -/
def content_hash (e : Entry) : String :=
  sha256hex (raw_text e)

/-- `FeedProcessor.process_entry` (lines 197-217): returns the classification
result (`none` for a cache hit) and the updated cache. -/
def process_entry (cache : List (String × CacheRecord)) (now : Int) (e : Entry) :
    Option String × List (String × CacheRecord) :=
  let h := content_hash e
  if containsA cache h then (none, cache)
  else
    let category := classify_text (raw_text e)
    (some category,
     insertA cache h ⟨now, category, (e.title.getD "").take 200, e.link.getD ""⟩)

/-- `FeedProcessor.load_cache` (lines 119-127) applied to successfully parsed
storage contents: keep a record exactly when
`now - v['timestamp'] < CACHE_EXPIRE_DAYS * 86400`. -/
def load_cache (stored : List (String × CacheRecord)) (now : Int) :
    List (String × CacheRecord) :=
  stored.filter (fun kv => now - kv.2.timestamp < CACHE_EXPIRE_DAYS * 86400)

/-! ### Fetcher (`FeedProcessor.fetch_feed`, lines 255-276)

`requests.get` is modelled by an oracle argument `r`: either a raised network
error or a response with a status code and parsed entries. The result records
the returned entries, the updated per-feed state, whether a network request
was performed, and whether an error was logged.

Line 262 reads `formatdate(self.last_fetch[feed_url])`, but `formatdate` is
never imported anywhere in the source, so whenever the URL has a recorded last
fetch time the body raises `NameError` before `requests.get` and falls into
the `except` branch (log error, 300 s cool-down, empty result). -/

/-- Per-feed fetcher state: `self.last_fetch` and `self.feed_timeout`. -/
structure FetchState where
  last_fetch : List (String × Nat)
  feed_timeout : List (String × Nat)
deriving DecidableEq

/-- `d.get(k, 0)` on a Nat-valued dict. -/
def lookupN (l : List (String × Nat)) (k : String) : Nat :=
  match l with
  | [] => 0
  | kv :: rest => if kv.1 = k then kv.2 else lookupN rest k

/-- `k in d` on a Nat-valued dict. -/
def containsN (l : List (String × Nat)) (k : String) : Bool :=
  match l with
  | [] => false
  | kv :: rest => if kv.1 = k then true else containsN rest k

/-- `d[k] = v` on a Nat-valued dict. -/
def insertN (l : List (String × Nat)) (k : String) (v : Nat) :
    List (String × Nat) :=
  match l with
  | [] => [(k, v)]
  | kv :: rest => if kv.1 = k then (k, v) :: rest else kv :: insertN rest k v

/-- Outcome of `requests.get`: a raised exception, or a response with a status
code and the entries `feedparser` would extract from its body. -/
inductive HttpResult where
  | raised : HttpResult
  | resp : Nat → List Entry → HttpResult
deriving DecidableEq

/-- Result of one `fetch_feed` call: entries returned, next state, whether a
network request was performed, whether an error was logged. -/
structure FetchOutcome where
  entries : List Entry
  state : FetchState
  networkCalled : Bool
  errorLogged : Bool
deriving DecidableEq

/-- `FeedProcessor.fetch_feed` (lines 255-276). -/
def fetch_feed (st : FetchState) (feed_url : String) (now : Nat) (r : HttpResult) :
    FetchOutcome :=
  if now < lookupN st.feed_timeout feed_url then
    -- cool-down guard (lines 257-258): no network request
    ⟨[], st, false, false⟩
  else if containsN st.last_fetch feed_url then
    -- line 262 raises NameError (formatdate is not imported): except branch,
    -- lines 273-276, before any network request
    ⟨[], { st with feed_timeout := insertN st.feed_timeout feed_url (now + 300) },
     false, true⟩
  else
    match r with
    | HttpResult.raised =>
      -- requests.get raised: except branch, lines 273-276
      ⟨[], { st with feed_timeout := insertN st.feed_timeout feed_url (now + 300) },
       true, true⟩
    | HttpResult.resp status entries =>
      if status = 304 then ⟨[], st, true, false⟩
      else ⟨entries.take ARTICLES_PER_FEED,
            { st with last_fetch := insertN st.last_fetch feed_url now },
            true, false⟩

/-! ### Publisher adapter and scheduler publish step -/

/-- One `<outline .../>` line of `generate_opml` (line 290). -/
def outlineLine (rec : CacheRecord) : String :=
  "<outline type=\"rss\" text=\"" ++ rec.title ++ "\" title=\"" ++ rec.title
    ++ "\" xmlUrl=\"" ++ rec.link ++ "\"/>\n"

/-- The body loop of `generate_opml` (lines 287-293): outlines for records of
the category, stopping after the 100th match. -/
def opmlLines (category : String) : List CacheRecord → Nat → List String
  | [], _ => []
  | rec :: rest, count =>
    if rec.category = category then
      if count + 1 ≥ 100 then [outlineLine rec]
      else outlineLine rec :: opmlLines category rest (count + 1)
    else opmlLines category rest count

/-- `FeedProcessor.generate_opml` (lines 278-304), modelled as the document
content written to the per-category file. -/
def generate_opml (cache : List (String × CacheRecord)) (category : String) :
    String :=
  "<?xml version=\"1.0\" encoding=\"UTF-8\"?>\n<opml version=\"1.0\">\n<head>\n<title>"
    ++ category ++ " Feed</title>\n</head>\n<body>\n"
    ++ String.join (opmlLines category (cache.map Prod.snd) 0)
    ++ "</body>\n</opml>"

/-- The operations the scheduler can invoke on the processor. -/
inductive Action where
  | fetchFeed : String → Action
  | processEntries : Action
  | saveCache : Action
  | generateOpmlFor : String → Action
  | pushToGithub : Action
deriving DecidableEq

/-- Phase 3 of the main loop (lines 358-377): the operations invoked on a
publish step, as a function of `time_since_last_push`. -/
def publish_phase (time_since_last_push : Nat) : List Action :=
  if time_since_last_push > 21600 then [Action.pushToGithub] else []

/-- The `KeyboardInterrupt` handler (lines 387-392): one final push. -/
def shutdown_phase : List Action :=
  [Action.pushToGithub]

/-! ### General lemmas -/

theorem lookupA_insertA_self (l : List (String × CacheRecord)) (k : String)
    (v : CacheRecord) : lookupA (insertA l k v) k = some v := by
  induction l with
  | nil => simp [insertA, lookupA]
  | cons kv rest ih =>
    by_cases h : kv.1 = k
    · simp [insertA, h, lookupA]
    · simp [insertA, h, lookupA, ih]

theorem countKey_insertA_of_lookupA_none (l : List (String × CacheRecord))
    (k : String) (v : CacheRecord) (h : lookupA l k = none) :
    countKey (insertA l k v) k = 1 := by
  induction l with
  | nil => simp [insertA, countKey, List.filter]
  | cons kv rest ih =>
    rw [lookupA] at h
    by_cases hk : kv.1 = k
    · simp [hk] at h
    · simp only [hk, if_false] at h
      rw [insertA, if_neg hk, countKey, List.filter]
      simp only [hk, decide_False]
      exact ih h

theorem sha256hex_length (s : String) : (sha256hex s).length = 64 := rfl

theorem foldl_pickMax_mem (xs : List (String × Nat)) (acc : String × Nat) :
    xs.foldl (fun best y => if best.2 < y.2 then y else best) acc ∈ acc :: xs := by
  induction xs generalizing acc with
  | nil => simp
  | cons y ys ih =>
    rw [List.foldl_cons]
    have h := ih (if acc.2 < y.2 then y else acc)
    rcases List.mem_cons.mp h with h1 | h1
    · rw [h1]
      by_cases hc : acc.2 < y.2
      · simp [hc]
      · simp [hc]
    · simp [List.mem_cons, h1]

theorem pickMax_cases (l : List (String × Nat)) :
    pickMax l = "Altro" ∨ ∃ s : Nat, (pickMax l, s) ∈ l := by
  cases l with
  | nil => exact Or.inl rfl
  | cons x xs =>
    right
    rw [pickMax]
    have h := foldl_pickMax_mem xs x
    exact ⟨(xs.foldl (fun best y => if best.2 < y.2 then y else best) x).2, h⟩

theorem mem_validCats {tc : String} {x : String × Nat} (hx : x ∈ validCats tc) :
    x ∈ scores tc ∧ thresholdOf x.1 ≤ x.2 := by
  rw [validCats] at hx
  have h := List.mem_filter.mp hx
  exact ⟨h.1, by simpa using h.2⟩

theorem mem_scores_cases {tc : String} {x : String × Nat} (hx : x ∈ scores tc) :
    x = ("Italia", if isExcluded italiaCat tc then 0 else catScore italiaCat tc)
    ∨ x = ("Economy", if isExcluded economyCat tc then 0 else catScore economyCat tc)
    ∨ x = ("USA", if isExcluded usaCat tc then 0 else catScore usaCat tc) := by
  simp only [scores, CATEGORIES, List.map_cons, List.map_nil, List.mem_cons,
    List.not_mem_nil, or_false] at hx
  exact hx

/-! ### Claim theorems -/

/-- The scenario text of the spec. -/
def c1TextBase : String := "Il Senato approva la nuova legge di bilancio"

/-- The scenario text extended with a match on `governo`. -/
def c1TextGoverno : String := "Il Senato approva la nuova legge di bilancio del governo"

/-- The scenario text extended with a match on `italia`. -/
def c1TextItalia : String := "Il Senato approva la nuova legge di bilancio in Italia"

/-- C1 counterexample: on the text extended with a match on `governo`, the
`Italia` score is still 4 — not 8 — because `governo` and `senato` are
alternatives of one and the same weight-4 pattern, which contributes its
weight only once; classify therefore returns `"Altro"`, not `"Italia"`. -/
theorem c1_governo_counterexample :
    scores (normalize c1TextGoverno) = [("Italia", 4), ("Economy", 0), ("USA", 0)]
    ∧ classify_text c1TextGoverno = "Altro"
    ∧ classify_text c1TextGoverno ≠ "Italia" := by
  refine ⟨by decide, by decide, by decide⟩

/-- C1 (amended): for the base text the `Italia` score is 4, below the
threshold 5, so the text is not classified `"Italia"`; extending it with a
match on `governo` leaves the score at 4 (same pattern as `senato`, a pattern
counts once however many of its alternatives match) and the text is still not
classified `"Italia"`; extending it instead with a match on `italia` (a
distinct pattern of weight 3) gives score 7 ≥ 5 and classify returns
`"Italia"`. -/
theorem c1_weighted_scoring_amended :
    scores (normalize c1TextBase) = [("Italia", 4), ("Economy", 0), ("USA", 0)]
    ∧ classify_text c1TextBase = "Altro"
    ∧ scores (normalize c1TextGoverno) = [("Italia", 4), ("Economy", 0), ("USA", 0)]
    ∧ classify_text c1TextGoverno = "Altro"
    ∧ scores (normalize c1TextItalia) = [("Italia", 7), ("Economy", 0), ("USA", 0)]
    ∧ classify_text c1TextItalia = "Italia" := by
  refine ⟨by decide, by decide, by decide, by decide, by decide, by decide⟩

/-- C2: the publish step of the main loop (phase 3) and the shutdown handler
invoke only `push_to_github`; `generate_opml` is never invoked for any
category, whatever the time since the last push — the per-category documents
are never materialized. -/
theorem c2_publish_never_generates :
    ∀ (time_since_last_push : Nat) (category : String),
      Action.generateOpmlFor category ∉ publish_phase time_since_last_push
      ∧ Action.generateOpmlFor category ∉ shutdown_phase := by
  intro t category
  constructor
  · rw [publish_phase]
    split
    · simp
    · simp
  · simp [shutdown_phase]

/-- The fetcher state of the C3 scenario: URL `"u"` has a recorded last
successful fetch time (100) and no active cool-down. -/
def c3State : FetchState := ⟨[("u", 100)], []⟩

/-- C3: for a URL with a recorded last fetch time and no cool-down, whatever
the network would answer, `fetch_feed` performs no network request at all
(the unimported `formatdate` raises `NameError` first), logs an error, enters
a 300 s cool-down and returns no entries — contradicting the claimed
conditional-request/304 behavior. -/
theorem c3_conditional_fetch_broken :
    ∀ r : HttpResult,
      fetch_feed c3State "u" 200 r = ⟨[], ⟨[("u", 100)], [("u", 500)]⟩, false, true⟩ := by
  intro r
  rfl

/-- C4: the content fingerprint is a fixed-size (64 hex character) digest and
a deterministic function of `title + " " + description`; processing two
entries with the same fingerprint (fresh in the cache) yields exactly one
cache record for it, and the second call returns `none` without mutating the
cache. -/
theorem c4_dedup_single_record (cache : List (String × CacheRecord))
    (e1 e2 : Entry) (n1 n2 : Int)
    (hfp : content_hash e1 = content_hash e2)
    (habs : lookupA cache (content_hash e1) = none) :
    (∀ e : Entry, (content_hash e).length = 64) ∧
    (∀ f1 f2 : Entry, raw_text f1 = raw_text f2 → content_hash f1 = content_hash f2) ∧
    (process_entry (process_entry cache n1 e1).2 n2 e2).1 = none ∧
    (process_entry (process_entry cache n1 e1).2 n2 e2).2 = (process_entry cache n1 e1).2 ∧
    countKey (process_entry cache n1 e1).2 (content_hash e2) = 1 := by
  have hcont : containsA cache (content_hash e1) = false := by
    rw [containsA, habs]
    rfl
  have hfirst : (process_entry cache n1 e1).2
      = insertA cache (content_hash e1)
          ⟨n1, classify_text (raw_text e1), (e1.title.getD "").take 200, e1.link.getD ""⟩ := by
    rw [process_entry]
    simp only [hcont, Bool.false_eq_true, if_false]
  have hhit : containsA (process_entry cache n1 e1).2 (content_hash e2) = true := by
    rw [hfirst, ← hfp, containsA, lookupA_insertA_self]
    rfl
  refine ⟨fun e => sha256hex_length (raw_text e),
          fun f1 f2 hr => by rw [content_hash, content_hash, hr],
          ?_, ?_, ?_⟩
  · rw [process_entry]
    simp only [hhit, if_true]
  · rw [process_entry]
    simp only [hhit, if_true]
  · rw [hfirst, ← hfp]
    exact countKey_insertA_of_lookupA_none cache (content_hash e1) _ habs

/-- First colliding entry: title `"A B"`, description `"C"`. -/
def c10Entry1 : Entry := ⟨some "A B", some "C", some "l1"⟩

/-- Second colliding entry: title `"A"`, description `"B C"`. -/
def c10Entry2 : Entry := ⟨some "A", some "B C", some "l2"⟩

/-- C4 witness: the dedup behavior at two concrete same-fingerprint entries
over the empty cache. -/
theorem c4_dedup_single_record_witness :
    (process_entry (process_entry [] 0 c10Entry1).2 1 c10Entry2).1 = none ∧
    countKey (process_entry [] 0 c10Entry1).2 (content_hash c10Entry2) = 1 :=
  ⟨(c4_dedup_single_record [] c10Entry1 c10Entry2 0 1 (by decide) rfl).2.2.1,
   (c4_dedup_single_record [] c10Entry1 c10Entry2 0 1 (by decide) rfl).2.2.2.2⟩

/-- A persisted record with timestamp 0. -/
def c5Record : CacheRecord := ⟨0, "Altro", "t", "l"⟩

/-- C5 counterexample: a record whose age equals the TTL exactly
(`now - timestamp = CACHE_EXPIRE_DAYS * 86400 = 259200`, so the `>` boundary
is not yet crossed) is already absent after `load()` — the code keeps a record
only while `now - timestamp < TTL`, evicting at age exactly TTL. -/
theorem c5_ttl_boundary_counterexample :
    load_cache [("k", c5Record)] (CACHE_EXPIRE_DAYS * 86400) = []
    ∧ ¬(CACHE_EXPIRE_DAYS * 86400 - c5Record.timestamp > CACHE_EXPIRE_DAYS * 86400) := by
  refine ⟨by decide, by decide⟩

/-- C5 (amended): a persisted record is absent from the cache returned by
`load()` if and only if `now - timestamp ≥ TTL`; in particular a record whose
age equals the TTL exactly is already evicted, and records are present exactly
while `now - timestamp < TTL`. -/
theorem c5_ttl_eviction_amended (stored : List (String × CacheRecord))
    (now : Int) (kv : String × CacheRecord) (hmem : kv ∈ stored) :
    (kv ∉ load_cache stored now ↔ now - kv.2.timestamp ≥ CACHE_EXPIRE_DAYS * 86400)
    ∧ (kv ∈ load_cache stored now ↔ now - kv.2.timestamp < CACHE_EXPIRE_DAYS * 86400) := by
  have hin : kv ∈ load_cache stored now ↔ now - kv.2.timestamp < CACHE_EXPIRE_DAYS * 86400 := by
    rw [load_cache]
    rw [List.mem_filter]
    simp [hmem]
  refine ⟨?_, hin⟩
  rw [hin]
  omega

/-- C5 witness: the amended eviction rule evaluated at a singleton store. -/
theorem c5_ttl_eviction_amended_witness :
    ("k", c5Record) ∉ load_cache [("k", c5Record)] 259200 :=
  (c5_ttl_eviction_amended [("k", c5Record)] 259200 ("k", c5Record)
    (List.mem_singleton.mpr rfl)).1.mpr (by decide)

/-- C6: for every input text and every category of the declared set, if the
normalized text matches one of that category's exclusion patterns then the
category is not among the qualifying categories (its score is forced to 0,
below its positive threshold) and `classify_text` never returns it. -/
theorem c6_exclusion_absolute (text : String) (nc : String × Category)
    (hmem : nc ∈ CATEGORIES)
    (hex : isExcluded nc.2 (normalize text) = true) :
    (∀ s : Nat, (nc.1, s) ∉ validCats (normalize text))
    ∧ classify_text text ≠ nc.1 := by
  fin_cases hmem
  · -- Italia, the only category with exclusion patterns
    have hnot : ∀ s : Nat, ("Italia", s) ∉ validCats (normalize text) := by
      intro s hs
      have h := mem_validCats hs
      rcases mem_scores_cases h.1 with h1 | h1 | h1
      · have hs0 : s = 0 := by
          have := (Prod.mk.injEq _ _ _ _).mp h1
          rw [this.2, hex]
          rfl
        have hthr : thresholdOf "Italia" ≤ s := h.2
        rw [hs0] at hthr
        exact absurd hthr (by decide)
      · exact absurd ((Prod.mk.injEq _ _ _ _).mp h1).1 (by decide)
      · exact absurd ((Prod.mk.injEq _ _ _ _).mp h1).1 (by decide)
    refine ⟨hnot, ?_⟩
    rw [classify_text]
    by_cases hempty : normalize text = ""
    · simp only [hempty, if_true]
      decide
    · simp only [hempty, if_false]
      rcases pickMax_cases (validCats (normalize text)) with hp | ⟨s, hp⟩
      · rw [hp]
        decide
      · intro hq
        rw [hq] at hp
        exact hnot s hp
  · -- Economy has no exclusion patterns: the hypothesis is impossible
    exact absurd hex (by simp [isExcluded, economyCat])
  · -- USA has no exclusion patterns: the hypothesis is impossible
    exact absurd hex (by simp [isExcluded, usaCat])

/-- A text with an `Italia` keyword together with the exclusion term `europa`. -/
def c6Text : String := "il governo vola in italia e in europa"

/-- C6 witness: the concrete scenario text is never classified `"Italia"`. -/
theorem c6_exclusion_absolute_witness :
    classify_text c6Text ≠ "Italia" :=
  (c6_exclusion_absolute c6Text ("Italia", italiaCat) (by decide) (by decide)).2

/-- C7: `classify_text` is a total function returning exactly one label, and
that label is a member of the declared category set or the `"Altro"`
sentinel, for every input text. -/
theorem c7_classify_total (text : String) :
    classify_text text = "Italia" ∨ classify_text text = "Economy"
    ∨ classify_text text = "USA" ∨ classify_text text = "Altro" := by
  rw [classify_text]
  by_cases hempty : normalize text = ""
  · simp only [hempty, if_true]
    tauto
  · simp only [hempty, if_false]
    rcases pickMax_cases (validCats (normalize text)) with hp | ⟨s, hp⟩
    · tauto
    · have h := mem_validCats hp
      rcases mem_scores_cases h.1 with h1 | h1 | h1
      · exact Or.inl ((Prod.mk.injEq _ _ _ _).mp h1).1
      · exact Or.inr (Or.inl ((Prod.mk.injEq _ _ _ _).mp h1).1)
      · exact Or.inr (Or.inr (Or.inl ((Prod.mk.injEq _ _ _ _).mp h1).1))

/-- The fetcher state of the C8 scenario: URL `"u"` failed at time 400 (cool-
down until 700) and has a last successful fetch recorded at time 100. -/
def c8State : FetchState := ⟨[("u", 100)], [("u", 700)]⟩

/-- C8: while the cool-down is active (`now < 700`) every fetch returns no
entries, performs no network request and leaves the state unchanged; but once
the cool-down has elapsed (`now = 700`), because the URL has a recorded last
fetch time, still no network request is attempted — the unimported
`formatdate` raises first, an error is logged and a fresh 300 s cool-down is
set, contradicting the claimed retry. -/
theorem c8_cooldown_no_retry (now : Nat) (r : HttpResult) (hlt : now < 700) :
    fetch_feed c8State "u" now r = ⟨[], c8State, false, false⟩
    ∧ ∀ r2 : HttpResult,
        fetch_feed c8State "u" 700 r2 = ⟨[], ⟨[("u", 100)], [("u", 1000)]⟩, false, true⟩ := by
  constructor
  · have hg : now < lookupN c8State.feed_timeout "u" := by
      simpa [c8State, lookupN] using hlt
    rw [fetch_feed.eq_def, if_pos hg]
  · intro r2
    rfl

/-- C8 witness: the cool-down behavior evaluated at `now = 699`. -/
theorem c8_cooldown_no_retry_witness :
    fetch_feed c8State "u" 699 HttpResult.raised = ⟨[], c8State, false, false⟩ :=
  (c8_cooldown_no_retry 699 HttpResult.raised (by decide)).1

/-- C10: two entries with different (title, description) pairs but the same
space-joined `raw_text` receive the same fingerprint; processed in sequence,
the second is deduplicated — not classified (result `none`) and not cached
(cache unchanged). -/
theorem c10_fingerprint_collision :
    (c10Entry1.title, c10Entry1.description) ≠ (c10Entry2.title, c10Entry2.description)
    ∧ raw_text c10Entry1 = raw_text c10Entry2
    ∧ content_hash c10Entry1 = content_hash c10Entry2
    ∧ (process_entry (process_entry [] 0 c10Entry1).2 1 c10Entry2).1 = none
    ∧ (process_entry (process_entry [] 0 c10Entry1).2 1 c10Entry2).2
        = (process_entry [] 0 c10Entry1).2 := by
  refine ⟨by decide, by decide, by decide, by decide, by decide⟩

end CategorizeRss
